import Mathlib

/-!
Verification of the MaStR storage-sync plausibility pipeline and
reconciliation engine (src/automated/marktstammdatenregister-storage-sync.py).

The Python record dicts are embedded as a `StorageRec` structure: the fields
the pipeline reads and writes are explicit; all other pass-through fields
(location, metadata, ...) are collected in the opaque `extra` component.
Python floats are modelled as exact rationals (`ℚ`); Python string
truthiness (`None` and `""` are falsy) is made explicit via `strTruthy`.
-/

namespace StorageSync

/-- One storage record, as produced by `map_to_directus_schema`.
`voltage_level` and `is_natural_person` embed the internal fields
`_voltage_level` and `_is_natural_person` of the source. -/
structure StorageRec where
  id : String
  technology : Option String
  usable_storage_capacity_kwh : Option ℚ
  power_kw : Option ℚ
  battery_technology : Option String
  commissioning_date : Option String
  grid_operator_review_status : Option String
  voltage_level : Option String
  is_natural_person : Bool
  category : Option String
  extra : List (String × String)
  deriving DecidableEq, Repr

/-- Python truthiness of an optional string: `None` and `""` are falsy. -/
def strTruthy : Option String → Bool
  | none => false
  | some s => !s.isEmpty

/-- Python `x or ''` on an optional string. -/
def pyOrEmpty : Option String → String
  | none => ""
  | some s => s

/-- `needle` occurs as a contiguous run inside `hay`. -/
def listInfix (needle : List Char) : List Char → Bool
  | [] => needle.isEmpty
  | c :: rest => needle.isPrefixOf (c :: rest) || listInfix needle rest

/-- Python `needle in hay` on strings (substring test). -/
def strIn (needle hay : String) : Bool :=
  listInfix needle.toList hay.toList

/-- Battery-Charts Step 1, `passes_consistency_check` of the source:
capacity present and > 0.3, power present and > 0.3, battery technology
present, commissioning date present, and E/P ratio within [0.1, 12]. -/
def passes_consistency_check (r : StorageRec) : Bool :=
  match r.usable_storage_capacity_kwh with
  | none => false
  | some capacity =>
    match r.power_kw with
    | none => false
    | some power =>
      if capacity ≤ 0.3 then false
      else if power ≤ 0.3 then false
      else if !strTruthy r.battery_technology then false
      else if !strTruthy r.commissioning_date then false
      else
        let ep := capacity / power
        if ep < 0.1 ∨ ep > 12 then false
        else true

/-- Battery-Charts Step 2, `categorize_battery` of the source:
Heimspeicher when both dimensions are below 30, Grossspeicher when both are
at or above 1000 and the two guards pass (operator not a natural person;
low-voltage entries only when grid-operator reviewed), `none` (demotion)
when a guard fails, Gewerbespeicher otherwise. -/
def categorize_battery (r : StorageRec) : Option String :=
  match r.usable_storage_capacity_kwh, r.power_kw with
  | some capacity, some power =>
    if capacity < 30 ∧ power < 30 then some "Heimspeicher"
    else if capacity ≥ 1000 ∧ power ≥ 1000 then
      if r.is_natural_person then none
      else
        let voltage := (pyOrEmpty r.voltage_level).toLower
        if strIn "niederspannung" voltage then
          let review := (pyOrEmpty r.grid_operator_review_status).toLower
          if !strIn "geprueft" review ∧ !strIn "geprüft" review then none
          else some "Grossspeicher"
        else some "Grossspeicher"
    else some "Gewerbespeicher"
  | _, _ => none

/-- Running sums of capacity and power plus count, mirroring the
`{'cap': 0, 'pwr': 0, 'n': 0}` accumulators of `correct_filtered_entries`. -/
structure SumEntry where
  cap : ℚ
  pwr : ℚ
  n : ℕ
  deriving DecidableEq, Repr

/-- `date_str[:7] if date_str and len(date_str) >= 7 else None` of the
source, applied to an optional date string. -/
def month_of : Option String → Option String
  | none => none
  | some s => if !s.isEmpty ∧ 7 ≤ s.length then some (s.take 7) else none

/-- The sample a valid record contributes to the reference tables:
`(category, capacity, power, month)` when category is truthy and both
dimensions are present, nothing otherwise (the loop's `continue`). -/
def sampleOf (r : StorageRec) : Option (String × ℚ × ℚ × Option String) :=
  match r.category, r.usable_storage_capacity_kwh, r.power_kw with
  | some cat, some cap, some pwr =>
    if cat.isEmpty then none
    else some (cat, cap, pwr, month_of r.commissioning_date)
  | _, _, _ => none

/-- One iteration of the reference-table loop for the monthly table. -/
def monthly_step (key : String × String) (acc : SumEntry) (r : StorageRec) : SumEntry :=
  match sampleOf r with
  | some (cat, cap, pwr, some month) =>
    if key = (cat, month) then ⟨acc.cap + cap, acc.pwr + pwr, acc.n + 1⟩ else acc
  | _ => acc

/-- The `monthly_sums` dictionary of the source, viewed as a total function
from keys `(category, month)`: a key that was never inserted has count 0. -/
def monthly_sums (valid : List StorageRec) (key : String × String) : SumEntry :=
  valid.foldl (monthly_step key) ⟨0, 0, 0⟩

/-- One iteration of the reference-table loop for the category table. -/
def category_step (key : String) (acc : SumEntry) (r : StorageRec) : SumEntry :=
  match sampleOf r with
  | some (cat, cap, pwr, _) =>
    if key = cat then ⟨acc.cap + cap, acc.pwr + pwr, acc.n + 1⟩ else acc
  | none => acc

/-- The `category_sums` dictionary of the source, viewed as a total function
from category keys. -/
def category_sums (valid : List StorageRec) (key : String) : SumEntry :=
  valid.foldl (category_step key) ⟨0, 0, 0⟩

/-- `monthly_avgs` of the source: a key is present exactly when at least one
valid record contributed to its bucket; the value is the pair of means. -/
def monthly_avg (valid : List StorageRec) (key : String × String) : Option (ℚ × ℚ) :=
  let s := monthly_sums valid key
  if s.n = 0 then none else some (s.cap / s.n, s.pwr / s.n)

/-- `category_avgs` of the source. -/
def category_avg (valid : List StorageRec) (key : String) : Option (ℚ × ℚ) :=
  let s := category_sums valid key
  if s.n = 0 then none else some (s.cap / s.n, s.pwr / s.n)

/-- Round half to even (Python's `round` on an exactly represented value). -/
def round_half_even (q : ℚ) : ℤ :=
  let f := q.floor
  if q - f < 1 / 2 then f
  else if q - f > 1 / 2 then f + 1
  else if f % 2 = 0 then f else f + 1

/-- Python `round(q, 2)`: round to two decimal places, half to even. -/
def round2 (q : ℚ) : ℚ := (round_half_even (q * 100) : ℚ) / 100

/-- The body of the correction loop of `correct_filtered_entries`: copy the
record, assign its category from the operator type, then replace the
dimensions from the monthly average, else the category average, else keep
them. The two average tables are passed in as built from the valid set. -/
def correct_one (mAvg : String × String → Option (ℚ × ℚ))
    (cAvg : String → Option (ℚ × ℚ)) (r : StorageRec) : StorageRec :=
  let cat := if r.is_natural_person then "Heimspeicher" else "Gewerbespeicher"
  let r1 := { r with category := some cat }
  let pick : Option (ℚ × ℚ) :=
    match month_of r1.commissioning_date with
    | some month => mAvg (cat, month)
    | none => none
  match pick with
  | some av =>
    { r1 with usable_storage_capacity_kwh := some (round2 av.1)
              power_kw := some (round2 av.2) }
  | none =>
    match cAvg cat with
    | some av =>
      { r1 with usable_storage_capacity_kwh := some (round2 av.1)
                power_kw := some (round2 av.2) }
    | none => r1

/-- Battery-Charts Step 3, `correct_filtered_entries` of the source. -/
def correct_filtered_entries (filtered valid : List StorageRec) : List StorageRec :=
  if filtered.isEmpty then []
  else filtered.map (correct_one (monthly_avg valid) (category_avg valid))

/-- The non-battery technology map of `apply_plausibility_checks`. -/
def TECH_MAP : List (String × String) :=
  [("Pumpspeicher", "Pumpspeicher"), ("Druckluft", "Druckluft"),
   ("Wasserstoffspeicher", "Wasserstoffspeicher"), ("Schwungrad", "Schwungrad")]

/-- `r.get('technology') == 'Batterie'`. -/
def is_battery (r : StorageRec) : Bool := r.technology == some "Batterie"

/-- `TECH_MAP.get(tech, tech) if tech else None` of the source. -/
def tech_category (r : StorageRec) : Option String :=
  match r.technology with
  | none => none
  | some t => if t.isEmpty then none else some ((TECH_MAP.lookup t).getD t)

/-- The non-battery records with their technology name as category. -/
def orch_non_batteries (records : List StorageRec) : List StorageRec :=
  (records.filter (fun r => !is_battery r)).map
    (fun r => { r with category := tech_category r })

/-- The battery partition of the orchestrator. -/
def orch_batteries (records : List StorageRec) : List StorageRec :=
  records.filter is_battery

/-- Batteries that pass the Step-1 consistency filter. -/
def orch_valid (records : List StorageRec) : List StorageRec :=
  (orch_batteries records).filter passes_consistency_check

/-- Batteries rejected by the Step-1 consistency filter. -/
def orch_filtered (records : List StorageRec) : List StorageRec :=
  (orch_batteries records).filter (fun r => !passes_consistency_check r)

/-- Python truthiness of the classifier's result string. -/
def cat_truthy : Option String → Bool
  | none => false
  | some c => !c.isEmpty

/-- The Step-2 loop body: assign the category when the classifier returns a
truthy value, leave the record untouched otherwise. -/
def step2_assign (r : StorageRec) : StorageRec :=
  if cat_truthy (categorize_battery r) then { r with category := categorize_battery r }
  else r

/-- The `demoted` list of the orchestrator: consistency-passed batteries for
which the classifier returned a falsy category. They are untouched by the
Step-2 loop. -/
def orch_demoted (records : List StorageRec) : List StorageRec :=
  (orch_valid records).filter (fun r => !cat_truthy (categorize_battery r))

/-- `valid = [r for r in valid if r.get('category')]` after the Step-2 loop. -/
def orch_valid2 (records : List StorageRec) : List StorageRec :=
  ((orch_valid records).map step2_assign).filter (fun r => strTruthy r.category)

/-- `filtered.extend(demoted)`: the Corrector's input. -/
def orch_filtered2 (records : List StorageRec) : List StorageRec :=
  orch_filtered records ++ orch_demoted records

/-- `apply_plausibility_checks` of the source: non-batteries keep their
technology as category; batteries run through filter, classifier and
corrector; the three groups are concatenated. -/
def apply_plausibility_checks (records : List StorageRec) : List StorageRec :=
  if (orch_batteries records).isEmpty then orch_non_batteries records
  else
    orch_non_batteries records ++ orch_valid2 records ++
      correct_filtered_entries (orch_filtered2 records) (orch_valid2 records)

/-!
Reconciliation engine. The destination store is modelled by the set of
identifiers it holds; each HTTP attempt's response status is an external
input, given as a function from the attempt index to the status code.
`batch_insert` and `batch_update` return the contributed success count
together with the list of backoff delays slept, mirroring
`time.sleep(retry_delay * (2 ** attempt))` of the source.
-/

/-- The attempt loop of `batch_insert`: success on 200/201 returns the batch
size, 503 sleeps `retry_delay * 2 ^ attempt` and retries, anything else
abandons the batch with 0; exhausting the attempts returns 0. -/
def insert_attempts (st : ℕ → ℕ) (n retry_delay : ℕ) : ℕ → ℕ → ℕ × List ℕ
  | _, 0 => (0, [])
  | attempt, fuel + 1 =>
    let s := st attempt
    if s = 200 ∨ s = 201 then (n, [])
    else if s = 503 then
      let rest := insert_attempts st n retry_delay (attempt + 1) fuel
      (rest.1, retry_delay * 2 ^ attempt :: rest.2)
    else (0, [])

/-- `batch_insert` of the source (success count, backoff delays slept). -/
def batch_insert (st : ℕ → ℕ) (batch : List StorageRec)
    (max_retries retry_delay : ℕ) : ℕ × List ℕ :=
  if batch.isEmpty then (0, [])
  else insert_attempts st batch.length retry_delay 0 max_retries

/-- The attempt loop of `batch_update`: like insert but success is 200/204. -/
def update_attempts (st : ℕ → ℕ) (n retry_delay : ℕ) : ℕ → ℕ → ℕ × List ℕ
  | _, 0 => (0, [])
  | attempt, fuel + 1 =>
    let s := st attempt
    if s = 200 ∨ s = 204 then (n, [])
    else if s = 503 then
      let rest := update_attempts st n retry_delay (attempt + 1) fuel
      (rest.1, retry_delay * 2 ^ attempt :: rest.2)
    else (0, [])

/-- `batch_update` of the source (success count, backoff delays slept). -/
def batch_update (st : ℕ → ℕ) (batch : List StorageRec)
    (max_retries retry_delay : ℕ) : ℕ × List ℕ :=
  if batch.isEmpty then (0, [])
  else update_attempts st batch.length retry_delay 0 max_retries

/-- `to_insert = [r for r in records if r['id'] not in existing_ids]` of
`sync_to_directus` in full mode. -/
def full_to_insert (records : List StorageRec) (existing : Finset String) :
    List StorageRec :=
  records.filter (fun r => !decide (r.id ∈ existing))

/-- `to_update = [r for r in records if r['id'] in existing_ids]` of
`sync_to_directus` in full mode. -/
def full_to_update (records : List StorageRec) (existing : Finset String) :
    List StorageRec :=
  records.filter (fun r => decide (r.id ∈ existing))

/-- `set(r['id'] for r in records if r.get('id'))` of `main`. -/
def raw_ids (records : List StorageRec) : Finset String :=
  ((records.filter (fun r => !r.id.isEmpty)).map (fun r => r.id)).toFinset

/-- The observable outcome of one full-mode run: the destination's id set
after the run and the three counters of the run summary. -/
structure SyncOutcome where
  store : Finset String
  inserted : ℕ
  updated : ℕ
  deleted : ℕ
  deriving DecidableEq

/-- One full-mode run of `main` (steps 4 and 5) against a destination that
accepts every batch write: pre-fetch the id set, partition the input into
insert and update sets, write both, then delete the stale ids
`existing - raw_ids`. Counters aggregate per-batch successes, which under an
always-accepting destination sum to the partition sizes. -/
def full_run (store : Finset String) (records : List StorageRec) : SyncOutcome :=
  let existing := store
  let toIns := full_to_insert records existing
  let toUpd := full_to_update records existing
  let stale := existing \ raw_ids records
  { store := (existing ∪ (toIns.map (fun r => r.id)).toFinset) \ stale
    inserted := toIns.length
    updated := toUpd.length
    deleted := stale.card }

/-!
Concrete records used in closed instances, witnesses and counterexamples.
-/

/-- A plausible battery record: 10 kWh, 5 kW, ratio 2 h. -/
def baseRec : StorageRec :=
  { id := "SEE900000000001", technology := some "Batterie",
    usable_storage_capacity_kwh := some 10, power_kw := some 5,
    battery_technology := some "Lithium-Ionen",
    commissioning_date := some "2024-03-15",
    grid_operator_review_status := none, voltage_level := none,
    is_natural_person := false, category := none, extra := [] }

/-- Ratio exactly 0.1 h: capacity 1, power 10. -/
def recRatioLow : StorageRec :=
  { baseRec with usable_storage_capacity_kwh := some 1, power_kw := some 10 }

/-- Ratio 12.1 h: capacity 12.1, power 1. -/
def recRatioHigh : StorageRec :=
  { baseRec with usable_storage_capacity_kwh := some 12.1, power_kw := some 1 }

/-- Missing capacity. -/
def recNullCap : StorageRec :=
  { baseRec with usable_storage_capacity_kwh := none, power_kw := some 10 }

/-- Missing power. -/
def recNullPow : StorageRec :=
  { baseRec with usable_storage_capacity_kwh := some 1, power_kw := none }

/-- Zero power. -/
def recZeroPow : StorageRec :=
  { baseRec with usable_storage_capacity_kwh := some 1, power_kw := some 0 }

/-- C2: the Consistency Filter accepts a battery record iff capacity is
present and > 0.3, power is present and > 0.3, a battery sub-technology
label and a commissioning date are present, and the ratio capacity/power
lies in [0.1, 12] with both endpoints inclusive; capacity=1, power=10 is
accepted, capacity=12.1, power=1 is rejected, and a null capacity, null
power or zero power yields `false` rather than an error. -/
theorem C2_consistency_filter :
    (∀ r : StorageRec, passes_consistency_check r = true ↔
      ∃ capacity power : ℚ,
        r.usable_storage_capacity_kwh = some capacity ∧
        r.power_kw = some power ∧
        0.3 < capacity ∧ 0.3 < power ∧
        strTruthy r.battery_technology = true ∧
        strTruthy r.commissioning_date = true ∧
        0.1 ≤ capacity / power ∧ capacity / power ≤ 12) ∧
    passes_consistency_check recRatioLow = true ∧
    passes_consistency_check recRatioHigh = false ∧
    passes_consistency_check recNullCap = false ∧
    passes_consistency_check recNullPow = false ∧
    passes_consistency_check recZeroPow = false := by
  refine ⟨?_,
    by norm_num [passes_consistency_check, recRatioLow, baseRec, strTruthy]; decide,
    by norm_num [passes_consistency_check, recRatioHigh, baseRec, strTruthy],
    by norm_num [passes_consistency_check, recNullCap, baseRec, strTruthy],
    by norm_num [passes_consistency_check, recNullPow, baseRec, strTruthy],
    by norm_num [passes_consistency_check, recZeroPow, baseRec, strTruthy]⟩
  intro r
  rcases hc : r.usable_storage_capacity_kwh with _ | capacity
  · simp [passes_consistency_check, hc]
  rcases hp : r.power_kw with _ | power
  · simp [passes_consistency_check, hc, hp]
  have hiff : passes_consistency_check r = true ↔
      ¬ capacity ≤ 0.3 ∧ ¬ power ≤ 0.3 ∧ strTruthy r.battery_technology = true ∧
        strTruthy r.commissioning_date = true ∧
        ¬ (capacity / power < 0.1 ∨ capacity / power > 12) := by
    simp only [passes_consistency_check, hc, hp]
    split_ifs with h1 h2 h3 h4 h5 <;> simp_all
  rw [hiff]
  constructor
  · rintro ⟨h1, h2, h3, h4, h5⟩
    push_neg at h1 h2 h5
    exact ⟨capacity, power, rfl, rfl, h1, h2, h3, h4, h5.1, h5.2⟩
  · rintro ⟨c, p, hc2, hp2, g1, g2, g3, g4, g5, g6⟩
    obtain rfl : capacity = c := by injection hc2
    obtain rfl : power = p := by injection hp2
    refine ⟨not_le.mpr g1, not_le.mpr g2, g3, g4, ?_⟩
    push_neg
    exact ⟨g5, g6⟩

/-- A consistent 1200 kWh / 1500 kW battery operated by a natural person. -/
def recNat1200 : StorageRec :=
  { baseRec with usable_storage_capacity_kwh := some 1200, power_kw := some 1500,
                 is_natural_person := true }

/-- Capacity exactly 30, power 29.9: fails the strict residential rule. -/
def recBoundary : StorageRec :=
  { baseRec with usable_storage_capacity_kwh := some 30, power_kw := some 29.9 }

/-- C7 counterexample: `recNat1200` passed the Consistency Filter and
satisfies neither the Residential rule nor the guarded UtilityScale rule
(guard (a) fails: the operator is a natural person), yet the classifier
does not return Commercial — it demotes the record to `none`. -/
theorem C7_counterexample :
    passes_consistency_check recNat1200 = true ∧
    recNat1200.usable_storage_capacity_kwh = some 1200 ∧
    recNat1200.power_kw = some 1500 ∧
    ¬ ((1200 : ℚ) < 30 ∧ (1500 : ℚ) < 30) ∧
    ¬ ((1200 : ℚ) ≥ 1000 ∧ (1500 : ℚ) ≥ 1000 ∧ recNat1200.is_natural_person = false) ∧
    categorize_battery recNat1200 = none ∧
    categorize_battery recNat1200 ≠ some "Gewerbespeicher" := by
  refine ⟨by norm_num [passes_consistency_check, recNat1200, baseRec, strTruthy]; decide,
    rfl, rfl, by norm_num, ?_, ?_, ?_⟩
  · rintro ⟨-, -, h⟩
    simp [recNat1200, baseRec] at h
  · norm_num [categorize_battery, recNat1200, baseRec]
  · norm_num [categorize_battery, recNat1200, baseRec]
    simp

/-- C7 (amended): a battery record whose dimensions are present and that
satisfies neither the Residential condition (both below 30) nor the
UtilityScale threshold (both at or above 1000) is classified Commercial;
records meeting the threshold but failing a guard are demoted instead. The
boundary record capacity=30.0, power=29.9 is Commercial. -/
theorem C7_commercial_fallthrough :
    (∀ (r : StorageRec) (capacity power : ℚ),
      r.usable_storage_capacity_kwh = some capacity →
      r.power_kw = some power →
      passes_consistency_check r = true →
      ¬ (capacity < 30 ∧ power < 30) →
      ¬ (1000 ≤ capacity ∧ 1000 ≤ power) →
      categorize_battery r = some "Gewerbespeicher") ∧
    categorize_battery recBoundary = some "Gewerbespeicher" := by
  constructor
  · intro r capacity power hc hp _ h1 h2
    simp only [categorize_battery, hc, hp]
    rw [if_neg h1, if_neg h2]
  · norm_num [categorize_battery, recBoundary, baseRec]

/-- Correction only touches `category`, the capacity and the power: every
other field of the record is returned unchanged. -/
theorem correct_one_frame (m : String × String → Option (ℚ × ℚ))
    (c : String → Option (ℚ × ℚ)) (r : StorageRec) :
    (correct_one m c r).id = r.id ∧
    (correct_one m c r).technology = r.technology ∧
    (correct_one m c r).battery_technology = r.battery_technology ∧
    (correct_one m c r).commissioning_date = r.commissioning_date ∧
    (correct_one m c r).grid_operator_review_status = r.grid_operator_review_status ∧
    (correct_one m c r).voltage_level = r.voltage_level ∧
    (correct_one m c r).is_natural_person = r.is_natural_person ∧
    (correct_one m c r).extra = r.extra := by
  rcases hm : month_of r.commissioning_date with _ | month
  · rcases hc2 : c (if r.is_natural_person then "Heimspeicher" else "Gewerbespeicher")
      with _ | av <;> simp [correct_one, hm, hc2]
  · rcases hm2 : m (if r.is_natural_person then "Heimspeicher" else "Gewerbespeicher", month)
      with _ | av
    · rcases hc2 : c (if r.is_natural_person then "Heimspeicher" else "Gewerbespeicher")
        with _ | av <;> simp [correct_one, hm, hm2, hc2]
    · simp [correct_one, hm, hm2]

/-- The category a corrected record receives: Heimspeicher for natural
persons, Gewerbespeicher otherwise. -/
theorem correct_one_category (m : String × String → Option (ℚ × ℚ))
    (c : String → Option (ℚ × ℚ)) (r : StorageRec) :
    (correct_one m c r).category =
      some (if r.is_natural_person then "Heimspeicher" else "Gewerbespeicher") := by
  rcases hm : month_of r.commissioning_date with _ | month
  · rcases hc2 : c (if r.is_natural_person then "Heimspeicher" else "Gewerbespeicher")
      with _ | av <;> simp [correct_one, hm, hc2]
  · rcases hm2 : m (if r.is_natural_person then "Heimspeicher" else "Gewerbespeicher", month)
      with _ | av
    · rcases hc2 : c (if r.is_natural_person then "Heimspeicher" else "Gewerbespeicher")
        with _ | av <;> simp [correct_one, hm, hm2, hc2]
    · simp [correct_one, hm, hm2]

/-- C4: every record produced by the Corrector is Residential
(Heimspeicher) exactly when its operator is a natural person and Commercial
(Gewerbespeicher) exactly otherwise; no corrected record is ever
UtilityScale (Grossspeicher). -/
theorem C4_corrected_category (filtered valid : List StorageRec) (r : StorageRec)
    (hmem : r ∈ correct_filtered_entries filtered valid) :
    (r.category = some "Heimspeicher" ↔ r.is_natural_person = true) ∧
    (r.category = some "Gewerbespeicher" ↔ r.is_natural_person = false) ∧
    r.category ≠ some "Grossspeicher" := by
  unfold correct_filtered_entries at hmem
  split at hmem
  · simp at hmem
  · obtain ⟨x, -, rfl⟩ := List.mem_map.mp hmem
    have hcat := correct_one_category (monthly_avg valid) (category_avg valid) x
    have hnat := (correct_one_frame (monthly_avg valid) (category_avg valid) x).2.2.2.2.2.2.1
    rw [hcat, hnat]
    cases h : x.is_natural_person <;> simp [h]

/-- The two branches of `correct_filtered_entries` agree with a plain map:
an empty filtered list maps to the empty list anyway. -/
theorem correct_filtered_entries_eq_map (filtered valid : List StorageRec) :
    correct_filtered_entries filtered valid =
      filtered.map (correct_one (monthly_avg valid) (category_avg valid)) := by
  unfold correct_filtered_entries
  split
  · rename_i h
    rw [List.isEmpty_iff] at h
    subst h
    rfl
  · rfl

/-- C10: the Corrector's output is positionally aligned with its input:
same length, and at every position the output record keeps the input
record's id and every field other than `category`, the capacity and the
power unchanged. (The embedding is purely functional; the source operates
on `r.copy()`, never mutating the input lists.) -/
theorem C10_corrector_frame (filtered valid : List StorageRec) :
    (correct_filtered_entries filtered valid).length = filtered.length ∧
    ∀ (i : ℕ) (h1 : i < filtered.length)
      (h2 : i < (correct_filtered_entries filtered valid).length),
      ((correct_filtered_entries filtered valid).get ⟨i, h2⟩).id =
        (filtered.get ⟨i, h1⟩).id ∧
      ((correct_filtered_entries filtered valid).get ⟨i, h2⟩).technology =
        (filtered.get ⟨i, h1⟩).technology ∧
      ((correct_filtered_entries filtered valid).get ⟨i, h2⟩).battery_technology =
        (filtered.get ⟨i, h1⟩).battery_technology ∧
      ((correct_filtered_entries filtered valid).get ⟨i, h2⟩).commissioning_date =
        (filtered.get ⟨i, h1⟩).commissioning_date ∧
      ((correct_filtered_entries filtered valid).get ⟨i, h2⟩).grid_operator_review_status =
        (filtered.get ⟨i, h1⟩).grid_operator_review_status ∧
      ((correct_filtered_entries filtered valid).get ⟨i, h2⟩).voltage_level =
        (filtered.get ⟨i, h1⟩).voltage_level ∧
      ((correct_filtered_entries filtered valid).get ⟨i, h2⟩).is_natural_person =
        (filtered.get ⟨i, h1⟩).is_natural_person ∧
      ((correct_filtered_entries filtered valid).get ⟨i, h2⟩).extra =
        (filtered.get ⟨i, h1⟩).extra := by
  rw [correct_filtered_entries_eq_map]
  refine ⟨List.length_map _ _, fun i h1 h2 => ?_⟩
  simp only [List.get_eq_getElem, List.getElem_map]
  exact correct_one_frame _ _ _

/-- `correct_one` keeps the record's id (a consequence of the frame). -/
theorem correct_one_id (m : String × String → Option (ℚ × ℚ))
    (c : String → Option (ℚ × ℚ)) (r : StorageRec) :
    (correct_one m c r).id = r.id :=
  (correct_one_frame m c r).1

/-- C3: a consistency-passed battery record with both dimensions at or above
1000 and a natural-person operator is demoted by the classifier (it returns
`none`, never Grossspeicher), and the orchestrator routes it into the
Corrector's input, so that its corrected copy appears in the output. -/
theorem C3_natural_person_demoted (records : List StorageRec) (r : StorageRec)
    (capacity power : ℚ)
    (hmem : r ∈ records)
    (hbat : r.technology = some "Batterie")
    (hpass : passes_consistency_check r = true)
    (hcap : r.usable_storage_capacity_kwh = some capacity)
    (hpow : r.power_kw = some power)
    (hc : 1000 ≤ capacity) (hp : 1000 ≤ power)
    (hnat : r.is_natural_person = true) :
    categorize_battery r = none ∧
    categorize_battery r ≠ some "Grossspeicher" ∧
    r ∈ orch_filtered2 records ∧
    correct_one (monthly_avg (orch_valid2 records)) (category_avg (orch_valid2 records)) r
      ∈ apply_plausibility_checks records := by
  have hnone : categorize_battery r = none := by
    simp only [categorize_battery, hcap, hpow]
    rw [if_neg (by rintro ⟨h30, -⟩; linarith), if_pos ⟨hc, hp⟩, if_pos hnat]
  have hvalid : r ∈ orch_valid records := by
    unfold orch_valid orch_batteries
    rw [List.mem_filter]
    exact ⟨List.mem_filter.mpr ⟨hmem, by simp [is_battery, hbat]⟩, hpass⟩
  have hdem : r ∈ orch_demoted records := by
    unfold orch_demoted
    rw [List.mem_filter]
    exact ⟨hvalid, by simp [hnone, cat_truthy]⟩
  have hf2 : r ∈ orch_filtered2 records := by
    unfold orch_filtered2
    exact List.mem_append_right _ hdem
  refine ⟨hnone, by simp [hnone], hf2, ?_⟩
  have hbne : (orch_batteries records).isEmpty = false := by
    rw [List.isEmpty_eq_false_iff_exists_mem]
    exact ⟨r, List.mem_filter.mpr ⟨hmem, by simp [is_battery, hbat]⟩⟩
  unfold apply_plausibility_checks
  rw [hbne]
  simp only [Bool.false_eq_true, if_false]
  refine List.mem_append_right _ ?_
  rw [correct_filtered_entries_eq_map]
  exact List.mem_map_of_mem _ hf2

/-!
Specification-side view of the reference statistics: the bucket of accepted
samples is the sublist of the valid set selected by a filter, and the means
are its sums divided by its size. The bridge lemmas below prove that the
dictionaries the code builds agree with this view.
-/

/-- The accepted samples of one category over all months. -/
def category_bucket (valid : List StorageRec) (cat : String) : List StorageRec :=
  valid.filter (fun v => v.category == some cat &&
    v.usable_storage_capacity_kwh.isSome && v.power_kw.isSome)

/-- The accepted samples of one `(category, commissioning month)` bucket. -/
def monthly_bucket (valid : List StorageRec) (cat month : String) : List StorageRec :=
  valid.filter (fun v => v.category == some cat &&
    v.usable_storage_capacity_kwh.isSome && v.power_kw.isSome &&
    month_of v.commissioning_date == some month)

/-- Total capacity of a list of samples. -/
def cap_sum (l : List StorageRec) : ℚ :=
  (l.map (fun v => v.usable_storage_capacity_kwh.getD 0)).sum

/-- Total power of a list of samples. -/
def pwr_sum (l : List StorageRec) : ℚ :=
  (l.map (fun v => v.power_kw.getD 0)).sum

/-- Inversion of `sampleOf`: a produced sample pins down the record's
category, dimensions and month. -/
theorem sampleOf_some {v : StorageRec} {c : String} {cap pw : ℚ}
    {mo : Option String} (h : sampleOf v = some (c, cap, pw, mo)) :
    v.category = some c ∧ c ≠ "" ∧
    v.usable_storage_capacity_kwh = some cap ∧ v.power_kw = some pw ∧
    mo = month_of v.commissioning_date := by
  unfold sampleOf at h
  rcases hv : v.category with _ | c0
  · simp [hv] at h
  rcases hc : v.usable_storage_capacity_kwh with _ | cap0
  · simp [hv, hc] at h
  rcases hp : v.power_kw with _ | pw0
  · simp [hv, hc, hp] at h
  simp only [hv, hc, hp] at h
  by_cases he : c0.isEmpty = true
  · simp [he] at h
  · rw [if_neg he] at h
    simp only [Option.some.injEq, Prod.mk.injEq] at h
    obtain ⟨rfl, rfl, rfl, hmo⟩ := h
    refine ⟨rfl, ?_, rfl, rfl, hmo.symm⟩
    intro hempty
    subst hempty
    exact he ((String.isEmpty_iff _).mpr rfl)

/-- Inversion of `sampleOf`: when no sample is produced, the record is in no
bucket of a non-empty category key. -/
theorem sampleOf_none {v : StorageRec} {key : String} (hkey : key ≠ "")
    (h : sampleOf v = none) :
    (v.category == some key && v.usable_storage_capacity_kwh.isSome &&
      v.power_kw.isSome) = false := by
  unfold sampleOf at h
  rcases hv : v.category with _ | c0
  · simp [hv]
  rcases hc : v.usable_storage_capacity_kwh with _ | cap0
  · simp [hv, hc]
  rcases hp : v.power_kw with _ | pw0
  · simp [hv, hc, hp]
  simp only [hv, hc, hp] at h
  by_cases he : c0.isEmpty = true
  · have hne : c0 ≠ key := by
      rw [(String.isEmpty_iff _).mp he]
      exact fun hk => hkey hk.symm
    simp [hne]
  · rw [if_neg he] at h
    exact absurd h (by simp)

/-- The category table's fold, generalized over the accumulator: it adds up
exactly the spec-side category bucket. -/
theorem category_sums_go (key : String) (hkey : key ≠ "") :
    ∀ (valid : List StorageRec) (acc : SumEntry),
      valid.foldl (category_step key) acc =
        ⟨acc.cap + cap_sum (category_bucket valid key),
         acc.pwr + pwr_sum (category_bucket valid key),
         acc.n + (category_bucket valid key).length⟩ := by
  intro valid
  induction valid with
  | nil =>
    intro acc
    simp [category_bucket, cap_sum, pwr_sum]
  | cons v vs ih =>
    intro acc
    rw [List.foldl_cons, ih]
    rcases hs : sampleOf v with _ | ⟨c, cap, pw, mo⟩
    · have hpred := sampleOf_none hkey hs
      have hstep : category_step key acc v = acc := by
        simp [category_step, hs]
      have hb : category_bucket (v :: vs) key = category_bucket vs key := by
        unfold category_bucket
        rw [List.filter_cons_of_neg (by simp [hpred])]
      rw [hstep, hb]
    · obtain ⟨hv, hcne, hcap, hpw, hmo⟩ := sampleOf_some hs
      by_cases hck : key = c
      · subst hck
        have hstep : category_step key acc v =
            ⟨acc.cap + cap, acc.pwr + pw, acc.n + 1⟩ := by
          simp [category_step, hs]
        have hb : category_bucket (v :: vs) key = v :: category_bucket vs key := by
          unfold category_bucket
          rw [List.filter_cons_of_pos (by simp [hv, hcap, hpw])]
        rw [hstep, hb]
        simp only [cap_sum, pwr_sum, List.map_cons, List.sum_cons, List.length_cons,
          hcap, hpw, Option.getD_some, SumEntry.mk.injEq]
        refine ⟨by ring, by ring, by omega⟩
      · have hstep : category_step key acc v = acc := by
          simp [category_step, hs, hck]
        have hb : category_bucket (v :: vs) key = category_bucket vs key := by
          unfold category_bucket
          rw [List.filter_cons_of_neg (by
            simp only [hv, Bool.and_eq_true, beq_iff_eq, Option.some.injEq]
            rintro ⟨⟨h1, -⟩, -⟩
            exact hck h1.symm)]
        rw [hstep, hb]

/-- `category_sums` agrees with the spec-side bucket sums. -/
theorem category_sums_bridge (valid : List StorageRec) (key : String)
    (hkey : key ≠ "") :
    category_sums valid key =
      ⟨cap_sum (category_bucket valid key), pwr_sum (category_bucket valid key),
       (category_bucket valid key).length⟩ := by
  unfold category_sums
  rw [category_sums_go key hkey valid ⟨0, 0, 0⟩]
  simp

/-- The monthly table's fold, generalized over the accumulator. -/
theorem monthly_sums_go (cat month : String) (hkey : cat ≠ "") :
    ∀ (valid : List StorageRec) (acc : SumEntry),
      valid.foldl (monthly_step (cat, month)) acc =
        ⟨acc.cap + cap_sum (monthly_bucket valid cat month),
         acc.pwr + pwr_sum (monthly_bucket valid cat month),
         acc.n + (monthly_bucket valid cat month).length⟩ := by
  intro valid
  induction valid with
  | nil =>
    intro acc
    simp [monthly_bucket, cap_sum, pwr_sum]
  | cons v vs ih =>
    intro acc
    rw [List.foldl_cons, ih]
    rcases hs : sampleOf v with _ | ⟨c, cap, pw, mo⟩
    · have hpred := sampleOf_none hkey hs
      have hstep : monthly_step (cat, month) acc v = acc := by
        simp [monthly_step, hs]
      have hb : monthly_bucket (v :: vs) cat month = monthly_bucket vs cat month := by
        unfold monthly_bucket
        rw [List.filter_cons_of_neg (by
          intro hcontra
          rw [Bool.and_eq_true] at hcontra
          rw [hcontra.1] at hpred
          exact Bool.noConfusion hpred)]
      rw [hstep, hb]
    · obtain ⟨hv, hcne, hcap, hpw, hmo⟩ := sampleOf_some hs
      rcases mo with _ | m
      · have hstep : monthly_step (cat, month) acc v = acc := by
          simp [monthly_step, hs]
        have hb : monthly_bucket (v :: vs) cat month = monthly_bucket vs cat month := by
          unfold monthly_bucket
          rw [List.filter_cons_of_neg (by simp [← hmo])]
        rw [hstep, hb]
      · by_cases hck : (cat, month) = (c, m)
        · have h1 : cat = c := congrArg Prod.fst hck
          have h2 : month = m := congrArg Prod.snd hck
          subst h1
          subst h2
          have hstep : monthly_step (cat, month) acc v =
              ⟨acc.cap + cap, acc.pwr + pw, acc.n + 1⟩ := by
            simp [monthly_step, hs]
          have hb : monthly_bucket (v :: vs) cat month = v :: monthly_bucket vs cat month := by
            unfold monthly_bucket
            rw [List.filter_cons_of_pos (by simp [hv, hcap, hpw, ← hmo])]
          rw [hstep, hb]
          simp only [cap_sum, pwr_sum, List.map_cons, List.sum_cons, List.length_cons,
            hcap, hpw, Option.getD_some, SumEntry.mk.injEq]
          refine ⟨by ring, by ring, by omega⟩
        · have hstep : monthly_step (cat, month) acc v = acc := by
            simp only [monthly_step, hs]
            rw [if_neg hck]
          have hb : monthly_bucket (v :: vs) cat month = monthly_bucket vs cat month := by
            unfold monthly_bucket
            rw [List.filter_cons_of_neg (by
              simp only [hv, ← hmo, Bool.and_eq_true, beq_iff_eq, Option.some.injEq]
              rintro ⟨⟨⟨hc1, -⟩, -⟩, hm1⟩
              exact hck (by rw [hc1, hm1]))]
          rw [hstep, hb]

/-- `monthly_sums` agrees with the spec-side bucket sums. -/
theorem monthly_sums_bridge (valid : List StorageRec) (cat month : String)
    (hkey : cat ≠ "") :
    monthly_sums valid (cat, month) =
      ⟨cap_sum (monthly_bucket valid cat month),
       pwr_sum (monthly_bucket valid cat month),
       (monthly_bucket valid cat month).length⟩ := by
  unfold monthly_sums
  rw [monthly_sums_go cat month hkey valid ⟨0, 0, 0⟩]
  simp

/-- A non-empty monthly bucket makes the monthly average its mean pair. -/
theorem monthly_avg_of_ne (valid : List StorageRec) (cat month : String)
    (hkey : cat ≠ "") (h : monthly_bucket valid cat month ≠ []) :
    monthly_avg valid (cat, month) =
      some (cap_sum (monthly_bucket valid cat month) /
              (monthly_bucket valid cat month).length,
            pwr_sum (monthly_bucket valid cat month) /
              (monthly_bucket valid cat month).length) := by
  unfold monthly_avg
  rw [monthly_sums_bridge valid cat month hkey]
  have : (monthly_bucket valid cat month).length ≠ 0 :=
    fun hz => h (List.length_eq_zero.mp hz)
  simp [this]

/-- An empty monthly bucket means the key is absent from `monthly_avgs`. -/
theorem monthly_avg_of_empty (valid : List StorageRec) (cat month : String)
    (hkey : cat ≠ "") (h : monthly_bucket valid cat month = []) :
    monthly_avg valid (cat, month) = none := by
  unfold monthly_avg
  rw [monthly_sums_bridge valid cat month hkey]
  simp [h]

/-- A non-empty category bucket makes the category average its mean pair. -/
theorem category_avg_of_ne (valid : List StorageRec) (cat : String)
    (hkey : cat ≠ "") (h : category_bucket valid cat ≠ []) :
    category_avg valid cat =
      some (cap_sum (category_bucket valid cat) / (category_bucket valid cat).length,
            pwr_sum (category_bucket valid cat) / (category_bucket valid cat).length) := by
  unfold category_avg
  rw [category_sums_bridge valid cat hkey]
  have : (category_bucket valid cat).length ≠ 0 :=
    fun hz => h (List.length_eq_zero.mp hz)
  simp [this]

/-- An empty category bucket means the key is absent from `category_avgs`. -/
theorem category_avg_of_empty (valid : List StorageRec) (cat : String)
    (hkey : cat ≠ "") (h : category_bucket valid cat = []) :
    category_avg valid cat = none := by
  unfold category_avg
  rw [category_sums_bridge valid cat hkey]
  simp [h]

/-- Dimension outcome of `correct_one` when the monthly lookup hits. -/
theorem correct_one_dims_monthly (m : String × String → Option (ℚ × ℚ))
    (c : String → Option (ℚ × ℚ)) (r : StorageRec) (month : String) (av1 av2 : ℚ)
    (hm : month_of r.commissioning_date = some month)
    (hav : m (if r.is_natural_person then "Heimspeicher" else "Gewerbespeicher",
              month) = some (av1, av2)) :
    (correct_one m c r).usable_storage_capacity_kwh = some (round2 av1) ∧
    (correct_one m c r).power_kw = some (round2 av2) := by
  simp [correct_one, hm, hav]

/-- Dimension outcome of `correct_one` when there is no commissioning month
and the category lookup hits. -/
theorem correct_one_dims_cat_nomonth (m : String × String → Option (ℚ × ℚ))
    (c : String → Option (ℚ × ℚ)) (r : StorageRec) (av1 av2 : ℚ)
    (hm : month_of r.commissioning_date = none)
    (hav : c (if r.is_natural_person then "Heimspeicher" else "Gewerbespeicher") =
      some (av1, av2)) :
    (correct_one m c r).usable_storage_capacity_kwh = some (round2 av1) ∧
    (correct_one m c r).power_kw = some (round2 av2) := by
  simp [correct_one, hm, hav]

/-- Dimension outcome of `correct_one` when the monthly lookup misses and
the category lookup hits. -/
theorem correct_one_dims_cat_monthmiss (m : String × String → Option (ℚ × ℚ))
    (c : String → Option (ℚ × ℚ)) (r : StorageRec) (month : String) (av1 av2 : ℚ)
    (hm : month_of r.commissioning_date = some month)
    (hmv : m (if r.is_natural_person then "Heimspeicher" else "Gewerbespeicher",
              month) = none)
    (hav : c (if r.is_natural_person then "Heimspeicher" else "Gewerbespeicher") =
      some (av1, av2)) :
    (correct_one m c r).usable_storage_capacity_kwh = some (round2 av1) ∧
    (correct_one m c r).power_kw = some (round2 av2) := by
  simp [correct_one, hm, hmv, hav]

/-- Dimension outcome of `correct_one` when both lookups miss: the original
values are kept. -/
theorem correct_one_dims_keep (m : String × String → Option (ℚ × ℚ))
    (c : String → Option (ℚ × ℚ)) (r : StorageRec)
    (hm : (match month_of r.commissioning_date with
           | some month =>
             m (if r.is_natural_person then "Heimspeicher" else "Gewerbespeicher",
                month)
           | none => none) = none)
    (hav : c (if r.is_natural_person then "Heimspeicher" else "Gewerbespeicher") =
      none) :
    (correct_one m c r).usable_storage_capacity_kwh = r.usable_storage_capacity_kwh ∧
    (correct_one m c r).power_kw = r.power_kw := by
  rcases hmo : month_of r.commissioning_date with _ | month
  · simp [correct_one, hmo, hav]
  · rw [hmo] at hm
    have hm2 : m (if r.is_natural_person then "Heimspeicher" else "Gewerbespeicher",
        month) = none := hm
    simp [correct_one, hmo, hm2, hav]

set_option maxHeartbeats 1000000 in
/-- C5 (amended): for a rejected or demoted record the Corrector uses, in
order, the mean of the accepted samples in its (assigned category,
commissioning month) bucket rounded to two decimals when that bucket has at
least one sample; else the overall category mean rounded to two decimals
when the category has at least one accepted sample; else the original
values are kept. -/
theorem C5_correction_fallback (filtered valid : List StorageRec) (r : StorageRec)
    (cat : String) (hmem : r ∈ filtered)
    (hcat : cat = if r.is_natural_person then "Heimspeicher" else "Gewerbespeicher") :
    correct_one (monthly_avg valid) (category_avg valid) r
      ∈ correct_filtered_entries filtered valid ∧
    (∀ month : String, month_of r.commissioning_date = some month →
      monthly_bucket valid cat month ≠ [] →
      (correct_one (monthly_avg valid) (category_avg valid) r).usable_storage_capacity_kwh =
        some (round2 (cap_sum (monthly_bucket valid cat month) /
          (monthly_bucket valid cat month).length)) ∧
      (correct_one (monthly_avg valid) (category_avg valid) r).power_kw =
        some (round2 (pwr_sum (monthly_bucket valid cat month) /
          (monthly_bucket valid cat month).length))) ∧
    ((month_of r.commissioning_date = none ∨
      (∃ month : String, month_of r.commissioning_date = some month ∧
        monthly_bucket valid cat month = [])) →
      category_bucket valid cat ≠ [] →
      (correct_one (monthly_avg valid) (category_avg valid) r).usable_storage_capacity_kwh =
        some (round2 (cap_sum (category_bucket valid cat) /
          (category_bucket valid cat).length)) ∧
      (correct_one (monthly_avg valid) (category_avg valid) r).power_kw =
        some (round2 (pwr_sum (category_bucket valid cat) /
          (category_bucket valid cat).length))) ∧
    ((month_of r.commissioning_date = none ∨
      (∃ month : String, month_of r.commissioning_date = some month ∧
        monthly_bucket valid cat month = [])) →
      category_bucket valid cat = [] →
      (correct_one (monthly_avg valid) (category_avg valid) r).usable_storage_capacity_kwh =
        r.usable_storage_capacity_kwh ∧
      (correct_one (monthly_avg valid) (category_avg valid) r).power_kw = r.power_kw) := by
  subst hcat
  have hcat' : (if r.is_natural_person then "Heimspeicher" else "Gewerbespeicher") ≠ "" := by
    cases r.is_natural_person <;> simp
  refine ⟨?_, ?_, ?_, ?_⟩
  · rw [correct_filtered_entries_eq_map]
    exact List.mem_map_of_mem _ hmem
  · intro month hm hne
    exact correct_one_dims_monthly (monthly_avg valid) (category_avg valid) r month _ _ hm
      (monthly_avg_of_ne valid _ month hcat' hne)
  · rintro (hmo | ⟨month, hmm, hempty⟩) hcb
    · exact correct_one_dims_cat_nomonth (monthly_avg valid) (category_avg valid) r _ _ hmo
        (category_avg_of_ne valid _ hcat' hcb)
    · exact correct_one_dims_cat_monthmiss (monthly_avg valid) (category_avg valid) r
        month _ _ hmm
        (monthly_avg_of_empty valid _ month hcat' hempty)
        (category_avg_of_ne valid _ hcat' hcb)
  · rintro (hmo | ⟨month, hmm, hempty⟩) hcb0
    · refine correct_one_dims_keep (monthly_avg valid) (category_avg valid) r
        (by rw [hmo]) (category_avg_of_empty valid _ hcat' hcb0)
    · refine correct_one_dims_keep (monthly_avg valid) (category_avg valid) r ?_
        (category_avg_of_empty valid _ hcat' hcb0)
      rw [hmm]
      exact monthly_avg_of_empty valid _ month hcat' hempty

/-- A rejected record with an implausible capacity, no commissioning date
and an organisational operator. -/
def recC5f : StorageRec :=
  { baseRec with usable_storage_capacity_kwh := some (1 / 100), power_kw := some 500,
                 commissioning_date := none }

/-- An accepted Gewerbespeicher sample of 1 kWh / 1 kW, without a date. -/
def recC5v1 : StorageRec :=
  { baseRec with category := some "Gewerbespeicher",
                 usable_storage_capacity_kwh := some 1, power_kw := some 1,
                 commissioning_date := none }

/-- An accepted Gewerbespeicher sample of 2 kWh / 2 kW, without a date. -/
def recC5v2 : StorageRec :=
  { baseRec with category := some "Gewerbespeicher",
                 usable_storage_capacity_kwh := some 2, power_kw := some 2,
                 commissioning_date := none }

/-- C5 counterexample: with no monthly bucket and a category mean of 4/3,
the Corrector writes 1.33 (the mean rounded to two decimals), which differs
from the category mean 4/3 the claim promises. -/
theorem C5_counterexample :
    recC5f.usable_storage_capacity_kwh = some (1 / 100) ∧
    month_of recC5f.commissioning_date = none ∧
    category_bucket [recC5v1, recC5v1, recC5v2] "Gewerbespeicher" ≠ [] ∧
    cap_sum (category_bucket [recC5v1, recC5v1, recC5v2] "Gewerbespeicher") /
      (category_bucket [recC5v1, recC5v1, recC5v2] "Gewerbespeicher").length = 4 / 3 ∧
    (correct_filtered_entries [recC5f] [recC5v1, recC5v1, recC5v2]).map
      (fun x => x.usable_storage_capacity_kwh) = [some (133 / 100)] ∧
    (133 / 100 : ℚ) ≠ 4 / 3 := by
  have he : ("Gewerbespeicher" : String).isEmpty = false := by decide
  refine ⟨rfl, rfl, ?_, ?_, ?_, by norm_num⟩
  · norm_num [category_bucket, recC5v1, recC5v2, baseRec]
    exact List.cons_ne_nil _ _
  · norm_num [category_bucket, cap_sum, recC5v1, recC5v2, baseRec]
  · norm_num [correct_filtered_entries, correct_one, month_of, monthly_avg,
      category_avg, monthly_sums, category_sums, monthly_step, category_step,
      sampleOf, round2, round_half_even, Rat.floor_def', he,
      recC5f, recC5v1, recC5v2, baseRec]

/-- The identifiers of a record list, in order. -/
def rec_ids (l : List StorageRec) : List String := l.map (fun r => r.id)

/-- Step 2 never changes a record's id. -/
theorem step2_assign_id (r : StorageRec) : (step2_assign r).id = r.id := by
  unfold step2_assign
  split <;> rfl

/-- On a record whose category is still unassigned, the truthiness of the
category after Step 2 coincides with the truthiness of the classifier's
answer. -/
theorem step2_truthy (r : StorageRec) (hcx : r.category = none) :
    strTruthy (step2_assign r).category = cat_truthy (categorize_battery r) := by
  rcases hc2 : categorize_battery r with _ | c
  · simp [step2_assign, hc2, cat_truthy, hcx, strTruthy]
  · by_cases he : c.isEmpty = true
    · simp [step2_assign, hc2, cat_truthy, he, hcx, strTruthy]
    · simp [step2_assign, hc2, cat_truthy, he, strTruthy]

/-- Everything in the consistency-passed set is an input record. -/
theorem orch_valid_subset (records : List StorageRec) :
    ∀ x ∈ orch_valid records, x ∈ records := by
  intro x hx
  exact (List.mem_filter.mp (List.mem_filter.mp hx).1).1

/-- A truthy technology yields a non-null technology category. -/
theorem tech_category_ne_none (r : StorageRec) (h : strTruthy r.technology = true) :
    tech_category r ≠ none := by
  rcases ht : r.technology with _ | t
  · rw [ht] at h
    simp [strTruthy] at h
  · rw [ht] at h
    simp only [strTruthy, Bool.not_eq_true'] at h
    simp [tech_category, ht, h]

/-- `rec_ids` distributes over append. -/
theorem rec_ids_append (l1 l2 : List StorageRec) :
    rec_ids (l1 ++ l2) = rec_ids l1 ++ rec_ids l2 :=
  List.map_append _ l1 l2

/-- C1: under the data-model invariants on the orchestrator's input (no
category assigned yet, technology present), the output's identifier list is
a permutation of the input's, the output has exactly as many records as the
input, and every output record carries a non-null category. -/
theorem C1_orchestrator_coverage (records : List StorageRec)
    (hcat : ∀ r ∈ records, r.category = none)
    (htech : ∀ r ∈ records, strTruthy r.technology = true) :
    (rec_ids (apply_plausibility_checks records)).Perm (rec_ids records) ∧
    (apply_plausibility_checks records).length = records.length ∧
    ∀ r ∈ apply_plausibility_checks records, r.category ≠ none := by
  have hids_nb : rec_ids (orch_non_batteries records) =
      rec_ids (records.filter (fun r => !is_battery r)) := by
    unfold rec_ids orch_non_batteries
    rw [List.map_map]
    rfl
  have hnbcat : ∀ r ∈ orch_non_batteries records, r.category ≠ none := by
    intro r hr
    obtain ⟨x, hx, rfl⟩ := List.mem_map.mp hr
    exact tech_category_ne_none x (htech x (List.mem_filter.mp hx).1)
  have hV2 : orch_valid2 records =
      ((orch_valid records).filter
        (fun x => cat_truthy (categorize_battery x))).map step2_assign := by
    unfold orch_valid2
    rw [List.filter_map]
    congr 1
    exact List.filter_congr
      (fun x hx => step2_truthy x (hcat x (orch_valid_subset records x hx)))
  have hids_v2 : rec_ids (orch_valid2 records) =
      rec_ids ((orch_valid records).filter
        (fun x => cat_truthy (categorize_battery x))) := by
    rw [hV2]
    unfold rec_ids
    rw [List.map_map]
    exact List.map_congr_left (fun x _ => step2_assign_id x)
  by_cases hB : (orch_batteries records).isEmpty = true
  · have hBnil : orch_batteries records = [] := List.isEmpty_iff.mp hB
    have hall : ∀ r ∈ records, ¬ is_battery r = true :=
      List.filter_eq_nil_iff.mp hBnil
    have hnb : records.filter (fun r => !is_battery r) = records :=
      List.filter_eq_self.mpr (fun a ha => by simp [hall a ha])
    have heq : rec_ids (orch_non_batteries records) = rec_ids records := by
      rw [hids_nb, hnb]
    unfold apply_plausibility_checks
    rw [if_pos hB]
    refine ⟨by rw [heq], ?_, hnbcat⟩
    simpa [rec_ids] using congrArg List.length heq
  · have hperm_v : (rec_ids ((orch_valid records).filter
        (fun x => cat_truthy (categorize_battery x))) ++
          rec_ids (orch_demoted records)).Perm (rec_ids (orch_valid records)) := by
      unfold rec_ids orch_demoted
      rw [← List.map_append]
      exact (List.filter_append_perm _ _).map _
    have hperm_b : (rec_ids (orch_valid records) ++
        rec_ids (orch_filtered records)).Perm (rec_ids (orch_batteries records)) := by
      unfold rec_ids orch_valid orch_filtered
      rw [← List.map_append]
      exact (List.filter_append_perm _ _).map _
    have hperm_rec : (rec_ids (records.filter (fun r => !is_battery r)) ++
        rec_ids (orch_batteries records)).Perm (rec_ids records) := by
      unfold rec_ids orch_batteries
      rw [← List.map_append]
      exact (List.perm_append_comm.trans
        (List.filter_append_perm is_battery records)).map _
    have hids_c : rec_ids (correct_filtered_entries (orch_filtered2 records)
        (orch_valid2 records)) =
        rec_ids (orch_filtered records) ++ rec_ids (orch_demoted records) := by
      rw [correct_filtered_entries_eq_map]
      unfold rec_ids
      rw [List.map_map]
      have h1 : (orch_filtered2 records).map
          ((fun r => r.id) ∘ correct_one (monthly_avg (orch_valid2 records))
            (category_avg (orch_valid2 records))) =
          (orch_filtered2 records).map (fun r => r.id) :=
        List.map_congr_left (fun x _ => correct_one_id _ _ x)
      rw [h1]
      unfold orch_filtered2
      rw [List.map_append]
    have hstep1 : (rec_ids ((orch_valid records).filter
        (fun x => cat_truthy (categorize_battery x))) ++
          (rec_ids (orch_filtered records) ++ rec_ids (orch_demoted records))).Perm
        (rec_ids (orch_batteries records)) := by
      refine List.Perm.trans
        (List.Perm.append_left _ List.perm_append_comm) ?_
      rw [← List.append_assoc]
      exact (hperm_v.append_right _).trans hperm_b
    have hmain : (rec_ids (apply_plausibility_checks records)).Perm
        (rec_ids records) := by
      unfold apply_plausibility_checks
      rw [if_neg hB, rec_ids_append, rec_ids_append, hids_nb, hids_v2, hids_c,
        List.append_assoc]
      exact (List.Perm.append_left _ hstep1).trans hperm_rec
    have hcats : ∀ r ∈ apply_plausibility_checks records, r.category ≠ none := by
      intro r hr
      unfold apply_plausibility_checks at hr
      rw [if_neg hB] at hr
      rcases List.mem_append.mp hr with hr1 | hr2
      · rcases List.mem_append.mp hr1 with hra | hrb
        · exact hnbcat r hra
        · have hh := (List.mem_filter.mp hrb).2
          intro heq
          rw [heq] at hh
          simp [strTruthy] at hh
      · rw [correct_filtered_entries_eq_map] at hr2
        obtain ⟨x, -, rfl⟩ := List.mem_map.mp hr2
        rw [correct_one_category]
        simp
    exact ⟨hmain, by simpa [rec_ids] using hmain.length_eq, hcats⟩

/-- C8: the full-mode insert and update partitions are disjoint (no record
is in both) and their concatenation is a permutation of the input list. -/
theorem C8_partition_disjoint (records : List StorageRec) (existing : Finset String) :
    (∀ r ∈ full_to_insert records existing, r ∉ full_to_update records existing) ∧
    (full_to_insert records existing ++ full_to_update records existing).Perm
      records := by
  constructor
  · intro r hins hupd
    have h1 := (List.mem_filter.mp hins).2
    have h2 := (List.mem_filter.mp hupd).2
    simp only [Bool.not_eq_true', decide_eq_false_iff_not] at h1
    simp only [decide_eq_true_eq] at h2
    exact h1 h2
  · unfold full_to_insert full_to_update
    have h : records.filter (fun r => decide (r.id ∈ existing)) =
        records.filter (fun r => !(!decide (r.id ∈ existing))) :=
      List.filter_congr (fun a _ => by simp)
    rw [h]
    exact List.filter_append_perm _ records

/-- With every attempt answered 503, the insert loop exhausts its fuel,
sleeping the doubling backoff delays, and returns 0. -/
theorem insert_attempts_all503 (st : ℕ → ℕ) (n d : ℕ) (h : ∀ a, st a = 503) :
    ∀ (fuel attempt : ℕ), insert_attempts st n d attempt fuel =
      (0, (List.range fuel).map (fun i => d * 2 ^ (attempt + i))) := by
  intro fuel
  induction fuel with
  | zero =>
    intro attempt
    simp [insert_attempts]
  | succ k ih =>
    intro attempt
    rw [insert_attempts, h attempt]
    norm_num
    rw [ih (attempt + 1)]
    simp only [Prod.mk.injEq, List.range_succ_eq_map, List.map_cons, List.map_map]
    refine ⟨trivial, ?_⟩
    rw [Nat.add_zero]
    congr 1
    exact List.map_congr_left (fun i _ => by
      have he : attempt + 1 + i = attempt + i.succ := by omega
      simp only [Function.comp_apply]
      rw [he])

/-- With every attempt answered 503, the update loop exhausts its fuel,
sleeping the doubling backoff delays, and returns 0. -/
theorem update_attempts_all503 (st : ℕ → ℕ) (n d : ℕ) (h : ∀ a, st a = 503) :
    ∀ (fuel attempt : ℕ), update_attempts st n d attempt fuel =
      (0, (List.range fuel).map (fun i => d * 2 ^ (attempt + i))) := by
  intro fuel
  induction fuel with
  | zero =>
    intro attempt
    simp [update_attempts]
  | succ k ih =>
    intro attempt
    rw [update_attempts, h attempt]
    norm_num
    rw [ih (attempt + 1)]
    simp only [Prod.mk.injEq, List.range_succ_eq_map, List.map_cons, List.map_map]
    refine ⟨trivial, ?_⟩
    rw [Nat.add_zero]
    congr 1
    exact List.map_congr_left (fun i _ => by
      have he : attempt + 1 + i = attempt + i.succ := by omega
      simp only [Function.comp_apply]
      rw [he])

/-- C9: for a non-empty batch, a destination answering 503 on every attempt
makes both writers retry with exponentially doubling delays up to the retry
ceiling and contribute 0; a first-attempt 200/201 insert (200/204 update)
returns the full batch size with no sleeping; any other first-attempt status
abandons the batch immediately with 0 and no sleeping. -/
theorem C9_batch_retry_policy (st : ℕ → ℕ) (batch : List StorageRec) (m d : ℕ)
    (hne : batch ≠ []) :
    ((∀ a, st a = 503) →
      batch_insert st batch m d = (0, (List.range m).map (fun a => d * 2 ^ a)) ∧
      batch_update st batch m d = (0, (List.range m).map (fun a => d * 2 ^ a))) ∧
    (0 < m → (st 0 = 200 ∨ st 0 = 201) →
      batch_insert st batch m d = (batch.length, [])) ∧
    (0 < m → (st 0 = 200 ∨ st 0 = 204) →
      batch_update st batch m d = (batch.length, [])) ∧
    (st 0 ≠ 200 → st 0 ≠ 201 → st 0 ≠ 503 → batch_insert st batch m d = (0, [])) ∧
    (st 0 ≠ 200 → st 0 ≠ 204 → st 0 ≠ 503 → batch_update st batch m d = (0, [])) := by
  have hbe : batch.isEmpty = false := by
    cases batch
    · exact absurd rfl hne
    · rfl
  refine ⟨?_, ?_, ?_, ?_, ?_⟩
  · intro h503
    constructor
    · rw [batch_insert, hbe]
      norm_num
      rw [insert_attempts_all503 st batch.length d h503 m 0]
      simp
    · rw [batch_update, hbe]
      norm_num
      rw [update_attempts_all503 st batch.length d h503 m 0]
      simp
  · intro hm hok
    obtain ⟨k, rfl⟩ : ∃ k, m = k + 1 := ⟨m - 1, by omega⟩
    rw [batch_insert, hbe]
    norm_num
    rw [insert_attempts, if_pos hok]
  · intro hm hok
    obtain ⟨k, rfl⟩ : ∃ k, m = k + 1 := ⟨m - 1, by omega⟩
    rw [batch_update, hbe]
    norm_num
    rw [update_attempts, if_pos hok]
  · intro h200 h201 h503
    rcases m with _ | k
    · rw [batch_insert, hbe]
      norm_num
      rw [insert_attempts]
    · rw [batch_insert, hbe]
      norm_num
      rw [insert_attempts, if_neg (by rintro (h | h) <;> [exact h200 h; exact h201 h]),
        if_neg h503]
  · intro h200 h204 h503
    rcases m with _ | k
    · rw [batch_update, hbe]
      norm_num
      rw [update_attempts]
    · rw [batch_update, hbe]
      norm_num
      rw [update_attempts, if_neg (by rintro (h | h) <;> [exact h200 h; exact h204 h]),
        if_neg h503]

/-- A non-empty string is not `isEmpty`. -/
theorem str_isEmpty_false {s : String} (h : s ≠ "") : s.isEmpty = false := by
  rw [Bool.eq_false_iff]
  exact fun ht => h ((String.isEmpty_iff _).mp ht)

/-- A record with a truthy id contributes its id to `raw_ids`. -/
theorem mem_raw_ids (records : List StorageRec) (r : StorageRec)
    (hr : r ∈ records) (hid : r.id ≠ "") : r.id ∈ raw_ids records := by
  unfold raw_ids
  rw [List.mem_toFinset]
  refine List.mem_map.mpr ⟨r, List.mem_filter.mpr ⟨hr, ?_⟩, rfl⟩
  simp [str_isEmpty_false hid]

/-- After one full-mode run against an always-accepting destination, the
destination holds exactly the incoming id set. -/
theorem full_run_store (store : Finset String) (records : List StorageRec)
    (hids : ∀ r ∈ records, r.id ≠ "") :
    (full_run store records).store = raw_ids records := by
  unfold full_run
  ext x
  simp only [Finset.mem_sdiff, Finset.mem_union, List.mem_toFinset, List.mem_map]
  constructor
  · rintro ⟨h1 | ⟨r, hr, rfl⟩, h2⟩
    · by_contra hx
      exact h2 ⟨h1, hx⟩
    · have hrm := (List.mem_filter.mp hr).1
      exact mem_raw_ids records r hrm (hids r hrm)
  · intro hx
    by_cases hst : x ∈ store
    · exact ⟨Or.inl hst, fun hc => hc.2 hx⟩
    · have hx2 := hx
      unfold raw_ids at hx2
      rw [List.mem_toFinset] at hx2
      obtain ⟨r, hrf, rfl⟩ := List.mem_map.mp hx2
      have hrm := (List.mem_filter.mp hrf).1
      refine ⟨Or.inr ⟨r, ?_, rfl⟩, fun hc => hst hc.1⟩
      unfold full_to_insert
      exact List.mem_filter.mpr ⟨hrm, by simp [hst]⟩

/-- C6 counterexample: with one fresh record, the first full-mode run
inserts it; the second identical run re-submits it as an update, so the
updated count of the second run is 1, not 0. -/
theorem C6_counterexample :
    (full_run ∅ [baseRec]).inserted = 1 ∧
    (full_run (full_run ∅ [baseRec]).store [baseRec]).inserted = 0 ∧
    (full_run (full_run ∅ [baseRec]).store [baseRec]).deleted = 0 ∧
    (full_run (full_run ∅ [baseRec]).store [baseRec]).updated = 1 ∧
    (full_run (full_run ∅ [baseRec]).store [baseRec]).updated ≠ 0 := by
  have hb : ("SEE900000000001" : String).isEmpty = false := by decide
  refine ⟨?_, ?_, ?_, ?_, ?_⟩ <;>
    simp [full_run, full_to_insert, full_to_update, raw_ids, baseRec, hb,
      Finset.ext_iff, List.mem_toFinset]

/-- C6 (amended): running Full mode a second time on the same records
(destination reflecting the first run's writes, all ids non-empty, every
write accepted) inserts nothing and deletes nothing and leaves the store
unchanged, but re-submits every record as an update: the second run's
updated count is the full input size, not zero. -/
theorem C6_second_run (store : Finset String) (records : List StorageRec)
    (hids : ∀ r ∈ records, r.id ≠ "") :
    (full_run (full_run store records).store records).inserted = 0 ∧
    (full_run (full_run store records).store records).deleted = 0 ∧
    (full_run (full_run store records).store records).updated = records.length ∧
    (full_run (full_run store records).store records).store =
      (full_run store records).store := by
  have hstore := full_run_store store records hids
  have hmem : ∀ r ∈ records, r.id ∈ raw_ids records :=
    fun r hr => mem_raw_ids records r hr (hids r hr)
  have hins : full_to_insert records (raw_ids records) = [] := by
    unfold full_to_insert
    exact List.filter_eq_nil_iff.mpr (fun a ha => by simp [hmem a ha])
  have hupd : full_to_update records (raw_ids records) = records := by
    unfold full_to_update
    exact List.filter_eq_self.mpr (fun a ha => by simp [hmem a ha])
  rw [hstore]
  refine ⟨?_, ?_, ?_, ?_⟩
  · show (full_to_insert records (raw_ids records)).length = 0
    rw [hins]
    rfl
  · show ((raw_ids records) \ raw_ids records).card = 0
    rw [Finset.sdiff_self]
    rfl
  · show (full_to_update records (raw_ids records)).length = records.length
    rw [hupd]
  · show ((raw_ids records) ∪
        ((full_to_insert records (raw_ids records)).map (fun r => r.id)).toFinset) \
        ((raw_ids records) \ raw_ids records) = raw_ids records
    rw [hins, Finset.sdiff_self]
    simp

/-!
Concrete instantiations: each theorem with hypotheses is exercised once at
a concrete input, with every hypothesis discharged by evaluation.
-/

/-- The spec's end-to-end trio, record 1: a valid residential battery. -/
def recW1a : StorageRec := { baseRec with is_natural_person := true }

/-- Record 2: a natural-person-operated 2000 kWh / 2000 kW battery. -/
def recW1b : StorageRec :=
  { baseRec with usable_storage_capacity_kwh := some 2000, power_kw := some 2000,
                 is_natural_person := true }

/-- Record 3: a hydrogen storage unit. -/
def recW1c : StorageRec :=
  { baseRec with technology := some "Wasserstoffspeicher", battery_technology := none }

/-- C1 exercised on the three-record scenario. -/
theorem C1_witness :
    (rec_ids (apply_plausibility_checks [recW1a, recW1b, recW1c])).Perm
      (rec_ids [recW1a, recW1b, recW1c]) ∧
    (apply_plausibility_checks [recW1a, recW1b, recW1c]).length =
      ([recW1a, recW1b, recW1c] : List StorageRec).length ∧
    ∀ r ∈ apply_plausibility_checks [recW1a, recW1b, recW1c], r.category ≠ none :=
  C1_orchestrator_coverage [recW1a, recW1b, recW1c] (by decide) (by decide)

/-- C3 exercised on the natural-person 1200/1500 record. -/
theorem C3_witness :
    categorize_battery recNat1200 = none ∧
    categorize_battery recNat1200 ≠ some "Grossspeicher" ∧
    recNat1200 ∈ orch_filtered2 [recNat1200] ∧
    correct_one (monthly_avg (orch_valid2 [recNat1200]))
      (category_avg (orch_valid2 [recNat1200])) recNat1200
      ∈ apply_plausibility_checks [recNat1200] :=
  C3_natural_person_demoted [recNat1200] recNat1200 1200 1500
    (List.mem_singleton.mpr rfl) rfl
    (by norm_num [passes_consistency_check, recNat1200, baseRec, strTruthy]; decide)
    rfl rfl (by norm_num) (by norm_num) rfl

/-- C4 exercised on a corrected copy of `recC5f`. -/
theorem C4_witness :
    ((correct_one (monthly_avg []) (category_avg []) recC5f).category =
        some "Heimspeicher" ↔
      (correct_one (monthly_avg []) (category_avg []) recC5f).is_natural_person =
        true) ∧
    ((correct_one (monthly_avg []) (category_avg []) recC5f).category =
        some "Gewerbespeicher" ↔
      (correct_one (monthly_avg []) (category_avg []) recC5f).is_natural_person =
        false) ∧
    (correct_one (monthly_avg []) (category_avg []) recC5f).category ≠
      some "Grossspeicher" :=
  C4_corrected_category [recC5f] []
    (correct_one (monthly_avg []) (category_avg []) recC5f)
    (by rw [correct_filtered_entries_eq_map]
        exact List.mem_map_of_mem _ (List.mem_singleton.mpr rfl))

/-- C5 exercised on `recC5f` against the three valid samples. -/
theorem C5_witness :
    correct_one (monthly_avg [recC5v1, recC5v1, recC5v2])
        (category_avg [recC5v1, recC5v1, recC5v2]) recC5f
      ∈ correct_filtered_entries [recC5f] [recC5v1, recC5v1, recC5v2] ∧
    (∀ month : String, month_of recC5f.commissioning_date = some month →
      monthly_bucket [recC5v1, recC5v1, recC5v2] "Gewerbespeicher" month ≠ [] →
      (correct_one (monthly_avg [recC5v1, recC5v1, recC5v2])
        (category_avg [recC5v1, recC5v1, recC5v2]) recC5f).usable_storage_capacity_kwh =
        some (round2 (cap_sum (monthly_bucket [recC5v1, recC5v1, recC5v2]
          "Gewerbespeicher" month) /
          (monthly_bucket [recC5v1, recC5v1, recC5v2] "Gewerbespeicher" month).length)) ∧
      (correct_one (monthly_avg [recC5v1, recC5v1, recC5v2])
        (category_avg [recC5v1, recC5v1, recC5v2]) recC5f).power_kw =
        some (round2 (pwr_sum (monthly_bucket [recC5v1, recC5v1, recC5v2]
          "Gewerbespeicher" month) /
          (monthly_bucket [recC5v1, recC5v1, recC5v2] "Gewerbespeicher" month).length))) ∧
    ((month_of recC5f.commissioning_date = none ∨
      (∃ month : String, month_of recC5f.commissioning_date = some month ∧
        monthly_bucket [recC5v1, recC5v1, recC5v2] "Gewerbespeicher" month = [])) →
      category_bucket [recC5v1, recC5v1, recC5v2] "Gewerbespeicher" ≠ [] →
      (correct_one (monthly_avg [recC5v1, recC5v1, recC5v2])
        (category_avg [recC5v1, recC5v1, recC5v2]) recC5f).usable_storage_capacity_kwh =
        some (round2 (cap_sum (category_bucket [recC5v1, recC5v1, recC5v2]
          "Gewerbespeicher") /
          (category_bucket [recC5v1, recC5v1, recC5v2] "Gewerbespeicher").length)) ∧
      (correct_one (monthly_avg [recC5v1, recC5v1, recC5v2])
        (category_avg [recC5v1, recC5v1, recC5v2]) recC5f).power_kw =
        some (round2 (pwr_sum (category_bucket [recC5v1, recC5v1, recC5v2]
          "Gewerbespeicher") /
          (category_bucket [recC5v1, recC5v1, recC5v2] "Gewerbespeicher").length))) ∧
    ((month_of recC5f.commissioning_date = none ∨
      (∃ month : String, month_of recC5f.commissioning_date = some month ∧
        monthly_bucket [recC5v1, recC5v1, recC5v2] "Gewerbespeicher" month = [])) →
      category_bucket [recC5v1, recC5v1, recC5v2] "Gewerbespeicher" = [] →
      (correct_one (monthly_avg [recC5v1, recC5v1, recC5v2])
        (category_avg [recC5v1, recC5v1, recC5v2]) recC5f).usable_storage_capacity_kwh =
        recC5f.usable_storage_capacity_kwh ∧
      (correct_one (monthly_avg [recC5v1, recC5v1, recC5v2])
        (category_avg [recC5v1, recC5v1, recC5v2]) recC5f).power_kw =
        recC5f.power_kw) :=
  C5_correction_fallback [recC5f] [recC5v1, recC5v1, recC5v2] recC5f
    "Gewerbespeicher" (List.mem_singleton.mpr rfl) rfl

/-- C6's amended theorem exercised on one record over the empty store. -/
theorem C6_witness :
    (full_run (full_run ∅ [baseRec]).store [baseRec]).inserted = 0 ∧
    (full_run (full_run ∅ [baseRec]).store [baseRec]).deleted = 0 ∧
    (full_run (full_run ∅ [baseRec]).store [baseRec]).updated =
      ([baseRec] : List StorageRec).length ∧
    (full_run (full_run ∅ [baseRec]).store [baseRec]).store =
      (full_run ∅ [baseRec]).store :=
  C6_second_run ∅ [baseRec] (by decide)

/-- C9 exercised with an always-503 destination on a one-record batch. -/
theorem C9_witness :
    ((∀ a, (fun _ : ℕ => 503) a = 503) →
      batch_insert (fun _ => 503) [baseRec] 3 2 =
        (0, (List.range 3).map (fun a => 2 * 2 ^ a)) ∧
      batch_update (fun _ => 503) [baseRec] 3 2 =
        (0, (List.range 3).map (fun a => 2 * 2 ^ a))) ∧
    (0 < 3 → ((fun _ : ℕ => 503) 0 = 200 ∨ (fun _ : ℕ => 503) 0 = 201) →
      batch_insert (fun _ => 503) [baseRec] 3 2 =
        (([baseRec] : List StorageRec).length, [])) ∧
    (0 < 3 → ((fun _ : ℕ => 503) 0 = 200 ∨ (fun _ : ℕ => 503) 0 = 204) →
      batch_update (fun _ => 503) [baseRec] 3 2 =
        (([baseRec] : List StorageRec).length, [])) ∧
    ((fun _ : ℕ => 503) 0 ≠ 200 → (fun _ : ℕ => 503) 0 ≠ 201 →
      (fun _ : ℕ => 503) 0 ≠ 503 →
      batch_insert (fun _ => 503) [baseRec] 3 2 = (0, [])) ∧
    ((fun _ : ℕ => 503) 0 ≠ 200 → (fun _ : ℕ => 503) 0 ≠ 204 →
      (fun _ : ℕ => 503) 0 ≠ 503 →
      batch_update (fun _ => 503) [baseRec] 3 2 = (0, [])) :=
  C9_batch_retry_policy (fun _ => 503) [baseRec] 3 2 (List.cons_ne_nil _ _)

end StorageSync
